import Mathlib

/-!
Shallow embedding of the spaced-repetition scheduling engine of
`src/services/spacedRepetition.ts` (class `SpacedRepetitionService`).

Modelling conventions:
* JavaScript numbers are modelled as exact rationals (`ℚ`); the two
  functions that use transcendental operations (`Math.pow(x, 1.5)` in
  `getReviewPriority` and `Math.log10` in `calculateDailyGoal`) are
  modelled over `ℝ`.
* Timestamps (`Date` values and ISO strings) are modelled as rational
  milliseconds since the epoch; `setDate(getDate() + n)` is adding
  `n * dayMs` milliseconds.
* `Math.random()` is modelled as an explicit parameter `rand`, with the
  JS guarantee `0 ≤ rand < 1` supplied as a hypothesis where needed.
* `Math.round x` is `⌊x + 1/2⌋` (the ECMAScript definition),
  `Math.ceil`/`Math.floor` are `⌈·⌉`/`⌊·⌋`, and
  `parseFloat(x.toFixed(2))` is rounding to two decimals,
  `⌊100x + 1/2⌋ / 100` (`toFixed` resolves ties to the larger value).
* `throw new Error(msg)` is `Except.error msg`.
* The division `pointsNeeded / (averageGainPerReview * diminishingFactor)`
  in `estimateTimeToMastery` can divide a positive number by zero, which
  in JavaScript yields `Infinity`, not an exception; that function is
  therefore modelled over a small IEEE-style number type `JsNum` that
  has infinities, with division and `Math.ceil` following the
  ECMAScript semantics on it.
-/

/-- ECMAScript `Math.round x`: the integer closest to `x`, ties toward `+∞`. -/
def jround (x : ℚ) : ℤ := ⌊x + 1/2⌋

/-- Rounding to two decimal places, `parseFloat(x.toFixed(2))` (ties to the larger value). -/
def round2 (x : ℚ) : ℚ := (jround (100 * x) : ℚ) / 100

/-- One day in milliseconds: `1000 * 60 * 60 * 24`. -/
def dayMs : ℚ := 1000 * 60 * 60 * 24

/-- The `difficulty` field of `VocabularyWord`:
the four values beginner, intermediate, advanced, master. -/
inductive Difficulty where
  | beginner
  | intermediate
  | advanced
  | master
deriving DecidableEq

/-- The fields of `VocabularyWord` (src/types/vocabulary.ts) used by the
scheduling engine, plus representative non-scheduling word data so that
frame conditions (`resetCardProgress` preserving word data) are statable.
Timestamps are rational milliseconds since the epoch. -/
structure Card where
  id : String
  word : String
  definition : String
  difficulty : Difficulty
  tags : List String
  examples : List String
  createdAt : ℚ
  interval : ℚ
  easeFactor : ℚ
  reviewCount : ℕ
  masteryScore : ℚ
  nextReviewAt : ℚ
  lastReviewedAt : ℚ
deriving DecidableEq

/-- The `Pick<VocabularyWord, ...>` record returned by `calculateNextReview`. -/
structure ReviewResult where
  interval : ℚ
  easeFactor : ℚ
  reviewCount : ℕ
  masteryScore : ℚ
  nextReviewAt : ℚ
  lastReviewedAt : ℚ
deriving DecidableEq

/-- Constant `MIN_EASE_FACTOR = 1.3`. -/
def MIN_EASE_FACTOR : ℚ := 1.3

/-- Constant `MAX_EASE_FACTOR = 2.5`. -/
def MAX_EASE_FACTOR : ℚ := 2.5

/-- Constant `INITIAL_EASE_FACTOR = 2.5`. -/
def INITIAL_EASE_FACTOR : ℚ := 2.5

/-- Constant `MASTERY_INCREMENT = 20`. -/
def MASTERY_INCREMENT : ℚ := 20

/-- Source `calculateEaseFactorChange(quality)`: the `switch` on quality with
`default: return 0`.  Quality is kept as a raw JS number (a rational), so
non-integral values fall through to the default branch, as in the source. -/
def calculateEaseFactorChange (quality : ℚ) : ℚ :=
  if quality = 5 then 0.15
  else if quality = 4 then 0.10
  else if quality = 3 then 0.05
  else if quality = 2 then -0.15
  else if quality = 1 then -0.25
  else if quality = 0 then -0.30
  else 0

/-- Source `clampEaseFactor(easeFactor) = Math.max(MIN_EASE_FACTOR, Math.min(MAX_EASE_FACTOR, easeFactor))`. -/
def clampEaseFactor (easeFactor : ℚ) : ℚ :=
  max MIN_EASE_FACTOR (min MAX_EASE_FACTOR easeFactor)

/-- Source `calculateMasteryIncrement(quality, currentMastery)`. -/
def calculateMasteryIncrement (quality currentMastery : ℚ) : ℚ :=
  if quality < 3 then
    -MASTERY_INCREMENT * max 0.3 (1 - currentMastery / 100)
  else
    (MASTERY_INCREMENT * (quality / 5)) * (1 - (currentMastery / 100) * 0.7)

/-- The jitter (in whole days) that `calculateNextReviewDate` adds to the
base date: the `randomVariation` / `variationDays` / `maxVariation` /
`finalVariation` lines of the source, factored out so the applied jitter
can be named.  `rand` is the `Math.random()` sample. -/
def appliedJitter (intervalDays rand : ℚ) : ℤ :=
  let randomVariation := rand * 0.2 - 0.1
  let variationDays := jround (intervalDays * randomVariation)
  let maxVariation := min |variationDays| 1
  if variationDays ≥ 0 then maxVariation else -maxVariation

/-- Source `calculateNextReviewDate(intervalDays)`, with `new Date()` (now) and the
`Math.random()` sample made explicit.  Returns the scheduled time in
milliseconds: now plus the interval, plus the jitter, clamped to be no
earlier than tomorrow. -/
def calculateNextReviewDate (intervalDays now rand : ℚ) : ℚ :=
  let baseDate := now + intervalDays * dayMs + (appliedJitter intervalDays rand : ℚ) * dayMs
  let tomorrow := now + dayMs
  if baseDate < tomorrow then tomorrow else baseDate

/-- Source `calculateNextReview(card, quality)`, with `now` and the random sample
explicit.  Quality is a raw JS number (the runtime value; the TS annotation
`0|1|2|3|4|5` is erased at runtime and the function validates by range
comparison only).  The single source `if (quality < 3)` branch assigning
both locals is rendered as two `let`s conditioned on the same test. -/
def calculateNextReview (card : Card) (quality now rand : ℚ) :
    Except String ReviewResult :=
  if quality < 0 ∨ quality > 5 then
    Except.error "Quality rating must be between 0 and 5"
  else if card.masteryScore < 0 ∨ card.masteryScore > 100 then
    Except.error "Mastery score must be between 0 and 100"
  else
    let newInterval : ℚ :=
      if quality < 3 then 1
      else if card.reviewCount = 0 then 1
      else if card.reviewCount = 1 then 6
      else (jround (card.interval * card.easeFactor) : ℚ)
    let newReviewCount : ℕ :=
      if quality < 3 then 0 else card.reviewCount + 1
    let newEaseFactor :=
      clampEaseFactor (card.easeFactor + calculateEaseFactorChange quality)
    let masteryIncrement := calculateMasteryIncrement quality card.masteryScore
    let newMasteryScore := min 100 (max 0 (card.masteryScore + masteryIncrement))
    Except.ok {
      interval := newInterval
      easeFactor := round2 newEaseFactor
      reviewCount := newReviewCount
      masteryScore := (jround newMasteryScore : ℚ)
      nextReviewAt := calculateNextReviewDate newInterval now rand
      lastReviewedAt := now }

/-- Source `initializeCard(card)`: set the scheduling fields to their initial
values (`now` explicit). -/
def initializeCard (card : Card) (now : ℚ) : Card :=
  { card with
    interval := 1
    easeFactor := INITIAL_EASE_FACTOR
    reviewCount := 0
    masteryScore := 0
    nextReviewAt := now
    lastReviewedAt := now }

/-- Source `resetCardProgress(card)`: reset scheduling state, preserving the word
data carried by the spread `...card`. -/
def resetCardProgress (card : Card) (now : ℚ) : Card :=
  { card with
    interval := 1
    easeFactor := INITIAL_EASE_FACTOR
    reviewCount := 0
    masteryScore := 0
    nextReviewAt := now
    lastReviewedAt := now }

/-- A JS number as produced by the division chain of
`estimateTimeToMastery`: finite, an infinity, or NaN. -/
inductive JsNum where
  | fin : ℚ → JsNum
  | posInf : JsNum
  | negInf : JsNum
  | nan : JsNum
deriving DecidableEq

/-- IEEE-754 division as performed by the `/` operator on JS numbers, on
the `JsNum` model (the `+0`/`-0` distinction is not modelled; division of
a finite value by zero takes the sign of the dividend). -/
def jsDiv (a b : JsNum) : JsNum :=
  match a, b with
  | .fin x, .fin y =>
      if y ≠ 0 then .fin (x / y)
      else if 0 < x then .posInf
      else if x < 0 then .negInf
      else .nan
  | .posInf, .fin y => if 0 ≤ y then .posInf else .negInf
  | .negInf, .fin y => if 0 ≤ y then .negInf else .posInf
  | .fin _, .posInf => .fin 0
  | .fin _, .negInf => .fin 0
  | _, _ => .nan

/-- ECMAScript `Math.ceil` on the `JsNum` model: `⌈·⌉` on finite values, identity on
infinities and NaN. -/
def jsCeil : JsNum → JsNum
  | .fin x => .fin (⌈x⌉ : ℚ)
  | x => x

/-- The `{ days, reviews }` record returned by `estimateTimeToMastery`. -/
structure MasteryEstimate where
  days : JsNum
  reviews : JsNum
deriving DecidableEq

/-- Source `estimateTimeToMastery(currentMastery, averageAccuracy, reviewsPerDay)`.
The divisions are performed on `JsNum` because the divisor
`averageGainPerReview * diminishingFactor` is zero when
`averageAccuracy = 0`, in which case JS produces `Infinity`. -/
def estimateTimeToMastery (currentMastery averageAccuracy reviewsPerDay : ℚ) :
    MasteryEstimate :=
  if currentMastery ≥ 95 then { days := .fin 0, reviews := .fin 0 }
  else
    let pointsNeeded := 100 - currentMastery
    let averageGainPerReview := (averageAccuracy / 100) * 15
    let diminishingFactor := 1 - (currentMastery / 100) * 0.5
    let reviewsNeeded :=
      jsCeil (jsDiv (.fin pointsNeeded) (.fin (averageGainPerReview * diminishingFactor)))
    let daysNeeded := jsCeil (jsDiv reviewsNeeded (.fin reviewsPerDay))
    { days := daysNeeded, reviews := reviewsNeeded }

/-- The `daysOverdue` computation of `getReviewPriority`:
`Math.max(0, (now.getTime() - new Date(card.nextReviewAt).getTime()) / (1000*60*60*24))`.
(The falsy guard of the source on `card.nextReviewAt` is always taken in this
model, as `nextReviewAt` is a non-empty ISO string on every `Card`.)
Over `ℝ` because `getReviewPriority` feeds it to `Math.pow(·, 1.5)`. -/
noncomputable def daysOverdue (card : Card) (now : ℝ) : ℝ :=
  max 0 ((now - (card.nextReviewAt : ℝ)) / (1000 * 60 * 60 * 24))

/-- The `difficultyWeight` lookup table of `getReviewPriority`:
`{ beginner: 0.8, intermediate: 1.0, advanced: 1.2, master: 1.5 }[card.difficulty] || 1.0`
(the `|| 1.0` default is unreachable: all four difficulty values are keys). -/
def difficultyWeight : Difficulty → ℝ
  | .beginner => 0.8
  | .intermediate => 1.0
  | .advanced => 1.2
  | .master => 1.5

/-- Source `getReviewPriority(card)`, with `now` explicit (in milliseconds).
`Math.pow(daysOverdue + 1, 1.5)` is real exponentiation. -/
noncomputable def getReviewPriority (card : Card) (now : ℝ) : ℝ :=
  let overdueWeight := (daysOverdue card now + 1) ^ (1.5 : ℝ)
  let masteryWeight := (100 - (card.masteryScore : ℝ)) / 100
  let recencyPenalty : ℝ := if card.reviewCount = 0 then 0.5 else 1.0
  (overdueWeight * 2 + masteryWeight * 3) * difficultyWeight card.difficulty *
    recencyPenalty

/-- ECMAScript `Math.round` over `ℝ` (for `calculateDailyGoal`, whose argument involves
`Math.log10`). -/
noncomputable def jroundR (x : ℝ) : ℤ := ⌊x + 1/2⌋

/-- Source `calculateDailyGoal(totalWords, dueWords, averageStudyTime, availableTime,
averageAccuracy)`.  `averageStudyTime || 30` replaces a zero (falsy) study
time by 30; `Math.log10` forces the `ℝ` model. -/
noncomputable def calculateDailyGoal
    (totalWords dueWords averageStudyTime availableTime averageAccuracy : ℝ) : ℝ :=
  if totalWords = 0 then 20
  else
    let baseGoal := min dueWords 50
    let timeBasedGoal : ℝ :=
      (⌊(availableTime * 60) / (if averageStudyTime = 0 then 30 else averageStudyTime)⌋ : ℤ)
    let performanceMultiplier := 0.5 + (averageAccuracy / 100) * 0.5
    let totalWordsFactor := min (Real.logb 10 (totalWords + 1)) 2
    min
      (max 10
        ((jroundR ((baseGoal * 0.4 + timeBasedGoal * 0.3 + totalWordsFactor * 15) *
            performanceMultiplier) : ℤ) : ℝ))
      100

/-- The host-side merge of a `ReviewResult` back onto a stored `Card`
(`{ ...card, ...update }`), used to chain reviews. -/
def applyResult (card : Card) (res : ReviewResult) : Card :=
  { card with
    interval := res.interval
    easeFactor := res.easeFactor
    reviewCount := res.reviewCount
    masteryScore := res.masteryScore
    nextReviewAt := res.nextReviewAt
    lastReviewedAt := res.lastReviewedAt }

/-- A concrete vocabulary card used as the base of concrete instances of
the theorems below. -/
def testCard : Card :=
  { id := "w1"
    word := "ubiquitous"
    definition := "present or found everywhere"
    difficulty := .intermediate
    tags := ["gre"]
    examples := ["smartphones are ubiquitous"]
    createdAt := 0
    interval := 6
    easeFactor := 2.5
    reviewCount := 3
    masteryScore := 40
    nextReviewAt := 0
    lastReviewedAt := 0 }

/-- A freshly initialized card (`interval=1, easeFactor=2.5, reviewCount=0,
masteryScore=0`), as produced by `initializeCard` at time 0. -/
def freshCard : Card := initializeCard testCard 0

/-- Copy of `testCard` with its `nextReviewAt` timestamp replaced. -/
def overdueCard (t : ℚ) : Card := { testCard with nextReviewAt := t }

lemma jround_ge {n : ℤ} {x : ℚ} (h : (n : ℚ) ≤ x + 1/2) : n ≤ jround x :=
  Int.le_floor.2 h

lemma jround_le {n : ℤ} {x : ℚ} (h : x + 1/2 < (n : ℚ) + 1) : jround x ≤ n := by
  have hlt : jround x < n + 1 := Int.floor_lt.2 (by push_cast; linarith)
  omega

lemma clampEaseFactor_mem (x : ℚ) :
    13/10 ≤ clampEaseFactor x ∧ clampEaseFactor x ≤ 5/2 := by
  unfold clampEaseFactor MIN_EASE_FACTOR MAX_EASE_FACTOR
  constructor
  · norm_num
  · exact max_le (by norm_num) (by exact (min_le_left _ _).trans (by norm_num))

lemma round2_mem {x : ℚ} (h1 : 13/10 ≤ x) (h2 : x ≤ 5/2) :
    13/10 ≤ round2 x ∧ round2 x ≤ 5/2 := by
  have hl : (130 : ℤ) ≤ jround (100 * x) := jround_ge (by push_cast; linarith)
  have hu : jround (100 * x) ≤ (250 : ℤ) := jround_le (by push_cast; linarith)
  unfold round2
  constructor
  · rw [le_div_iff₀ (by norm_num)]
    calc (13/10 : ℚ) * 100 = 130 := by norm_num
    _ ≤ (jround (100 * x) : ℚ) := by exact_mod_cast hl
  · rw [div_le_iff₀ (by norm_num)]
    calc (jround (100 * x) : ℚ) ≤ 250 := by exact_mod_cast hu
    _ = (5/2 : ℚ) * 100 := by norm_num

/-- Evaluation of `calculateNextReview` on inputs that pass both
validations: the result is `Except.ok` of the record built from the
local computations of the source. -/
lemma calculateNextReview_ok (card : Card) (quality now rand : ℚ)
    (hq0 : 0 ≤ quality) (hq5 : quality ≤ 5)
    (hm0 : 0 ≤ card.masteryScore) (hm1 : card.masteryScore ≤ 100) :
    calculateNextReview card quality now rand = Except.ok {
      interval := if quality < 3 then 1 else if card.reviewCount = 0 then 1
        else if card.reviewCount = 1 then 6
        else (jround (card.interval * card.easeFactor) : ℚ)
      easeFactor :=
        round2 (clampEaseFactor (card.easeFactor + calculateEaseFactorChange quality))
      reviewCount := if quality < 3 then 0 else card.reviewCount + 1
      masteryScore := (jround (min 100 (max 0
        (card.masteryScore + calculateMasteryIncrement quality card.masteryScore))) : ℚ)
      nextReviewAt := calculateNextReviewDate
        (if quality < 3 then 1 else if card.reviewCount = 0 then 1
          else if card.reviewCount = 1 then 6
          else (jround (card.interval * card.easeFactor) : ℚ)) now rand
      lastReviewedAt := now } := by
  unfold calculateNextReview
  rw [if_neg (by simp only [not_or, not_lt]; exact ⟨hq0, hq5⟩),
    if_neg (by simp only [not_or, not_lt]; exact ⟨hm0, hm1⟩)]

lemma calculateNextReviewDate_ge (intervalDays now rand : ℚ) :
    now + dayMs ≤ calculateNextReviewDate intervalDays now rand := by
  simp only [calculateNextReviewDate]
  split
  · exact le_refl _
  · next h => linarith [not_lt.mp h]

/-- Claim C1: for every card satisfying the Card invariants and every quality in
[0,5], `calculateNextReview` succeeds and its output has
`easeFactor ∈ [1.3, 2.5]`, an integer `masteryScore ∈ [0, 100]`,
`interval ≥ 1`, and `nextReviewAt` at least one full day after `now`, for
every value of the random jitter sample. -/
theorem calculateNextReview_preserves_invariants
    (card : Card) (quality now rand : ℚ)
    (hef1 : 13/10 ≤ card.easeFactor) (hef2 : card.easeFactor ≤ 5/2)
    (hm0 : 0 ≤ card.masteryScore) (hm1 : card.masteryScore ≤ 100)
    (hint : 1 ≤ card.interval)
    (hq0 : 0 ≤ quality) (hq5 : quality ≤ 5) :
    ∃ res : ReviewResult,
      calculateNextReview card quality now rand = Except.ok res ∧
      13/10 ≤ res.easeFactor ∧ res.easeFactor ≤ 5/2 ∧
      (∃ k : ℤ, res.masteryScore = (k : ℚ)) ∧
      0 ≤ res.masteryScore ∧ res.masteryScore ≤ 100 ∧
      1 ≤ res.interval ∧
      now + dayMs ≤ res.nextReviewAt := by
  rw [calculateNextReview_ok card quality now rand hq0 hq5 hm0 hm1]
  refine ⟨_, rfl, ?_, ?_, ⟨_, rfl⟩, ?_, ?_, ?_, ?_⟩
  · exact (round2_mem (clampEaseFactor_mem _).1 (clampEaseFactor_mem _).2).1
  · exact (round2_mem (clampEaseFactor_mem _).1 (clampEaseFactor_mem _).2).2
  · dsimp only
    have h0 : (0 : ℤ) ≤ jround (min 100 (max 0
        (card.masteryScore + calculateMasteryIncrement quality card.masteryScore))) := by
      refine jround_ge ?_
      have : (0 : ℚ) ≤ min 100 (max 0
          (card.masteryScore + calculateMasteryIncrement quality card.masteryScore)) :=
        le_min (by norm_num) (le_max_left _ _)
      push_cast
      linarith
    exact_mod_cast h0
  · dsimp only
    have h1 : jround (min 100 (max 0
        (card.masteryScore + calculateMasteryIncrement quality card.masteryScore))) ≤
        (100 : ℤ) := by
      refine jround_le ?_
      have : min 100 (max 0
          (card.masteryScore + calculateMasteryIncrement quality card.masteryScore)) ≤
          (100 : ℚ) := min_le_left _ _
      push_cast
      linarith
    exact_mod_cast h1
  · show (1 : ℚ) ≤ if quality < 3 then 1 else if card.reviewCount = 0 then 1
      else if card.reviewCount = 1 then 6
      else (jround (card.interval * card.easeFactor) : ℚ)
    split
    · exact le_refl _
    split
    · exact le_refl _
    split
    · norm_num
    · have hprod : (13/10 : ℚ) ≤ card.interval * card.easeFactor := by nlinarith
      have : (1 : ℤ) ≤ jround (card.interval * card.easeFactor) :=
        jround_ge (by push_cast; linarith)
      exact_mod_cast this
  · exact calculateNextReviewDate_ge _ now rand

/-- Concrete instance of C1: the invariants hold on the output of a
quality-5 review of `testCard`. -/
theorem calculateNextReview_preserves_invariants_witness :
    ∃ res : ReviewResult,
      calculateNextReview testCard 5 0 (1/2) = Except.ok res ∧
      13/10 ≤ res.easeFactor ∧ res.easeFactor ≤ 5/2 ∧
      (∃ k : ℤ, res.masteryScore = (k : ℚ)) ∧
      0 ≤ res.masteryScore ∧ res.masteryScore ≤ 100 ∧
      1 ≤ res.interval ∧
      0 + dayMs ≤ res.nextReviewAt :=
  calculateNextReview_preserves_invariants testCard 5 0 (1/2)
    (by norm_num [testCard]) (by norm_num [testCard]) (by norm_num [testCard])
    (by norm_num [testCard]) (by norm_num [testCard]) (by norm_num) (by norm_num)

/-- Claim C3: any card with `reviewCount > 0` (any interval, ease and in-range
mastery), reviewed with quality 0, 1 or 2, comes back with
`reviewCount = 0` and `interval = 1`. -/
theorem failed_review_resets (card : Card) (quality now rand : ℚ)
    (hm0 : 0 ≤ card.masteryScore) (hm1 : card.masteryScore ≤ 100)
    (hN : 0 < card.reviewCount)
    (hq : quality = 0 ∨ quality = 1 ∨ quality = 2) :
    ∃ res : ReviewResult,
      calculateNextReview card quality now rand = Except.ok res ∧
      res.reviewCount = 0 ∧ res.interval = 1 := by
  have hq0 : 0 ≤ quality := by rcases hq with h | h | h <;> rw [h] <;> norm_num
  have hq5 : quality ≤ 5 := by rcases hq with h | h | h <;> rw [h] <;> norm_num
  have hq3 : quality < 3 := by rcases hq with h | h | h <;> rw [h] <;> norm_num
  rw [calculateNextReview_ok card quality now rand hq0 hq5 hm0 hm1]
  exact ⟨_, rfl, by simp [if_pos hq3], by simp [if_pos hq3]⟩

/-- Claim C2 (amended): `calculateNextReview` fails exactly when `quality < 0`,
`quality > 5`, or the `masteryScore` of the card is outside [0,100] (the source
does not check that quality is an integer); the quality check runs first,
so an out-of-range quality yields the quality error message.  The function
is pure, so on failure the input card is unchanged and no result fields
are produced. -/
theorem calculateNextReview_error_iff (card : Card) (quality now rand : ℚ) :
    ((∃ e, calculateNextReview card quality now rand = Except.error e) ↔
      (quality < 0 ∨ 5 < quality ∨ card.masteryScore < 0 ∨ 100 < card.masteryScore)) ∧
    ((quality < 0 ∨ 5 < quality) →
      calculateNextReview card quality now rand =
        Except.error "Quality rating must be between 0 and 5") := by
  unfold calculateNextReview
  constructor
  · constructor
    · rintro ⟨e, he⟩
      by_cases h1 : quality < 0 ∨ quality > 5
      · tauto
      · rw [if_neg h1] at he
        by_cases h2 : card.masteryScore < 0 ∨ card.masteryScore > 100
        · tauto
        · rw [if_neg h2] at he
          exact absurd he (by simp)
    · intro h
      by_cases h1 : quality < 0 ∨ quality > 5
      · exact ⟨_, by rw [if_pos h1]⟩
      · have h2 : card.masteryScore < 0 ∨ card.masteryScore > 100 := by tauto
        exact ⟨_, by rw [if_neg h1, if_pos h2]⟩
  · intro h
    rw [if_pos h]

/-- Concrete instance of C2 (amended): quality 7 is rejected with the
quality error message. -/
theorem calculateNextReview_error_iff_witness :
    calculateNextReview testCard 7 0 0 =
      Except.error "Quality rating must be between 0 and 5" :=
  (calculateNextReview_error_iff testCard 7 0 0).2 (by norm_num)

/-- Counterexample to C2 as stated: quality `1/2` is not an integer in
[0,5], yet `calculateNextReview` succeeds on it (the source only compares
against the range bounds and never checks integrality). -/
theorem calculateNextReview_no_integrality_check :
    (∃ res, calculateNextReview testCard (1/2) 0 0 = Except.ok res) ∧
    ¬ (∃ k : ℤ, (k : ℚ) = 1/2 ∧ 0 ≤ k ∧ k ≤ 5) := by
  constructor
  · exact ⟨_, calculateNextReview_ok testCard (1/2) 0 0 (by norm_num) (by norm_num)
      (by norm_num [testCard]) (by norm_num [testCard])⟩
  · rintro ⟨k, hk, hk0, hk5⟩
    have h2 : ((2 * k : ℤ) : ℚ) = 1 := by push_cast; linarith
    have h3 : (2 * k : ℤ) = 1 := by exact_mod_cast h2
    omega

/-- Claim C4: from a freshly initialized card, three consecutive quality-5
reviews (each feeding the returned fields back in) produce the interval
sequence 1, 6, 15, keep `easeFactor` clamped at 2.5, and increment
`reviewCount` to 1, 2, 3. -/
theorem growth_sequence :
    ∃ r1 r2 r3 : ReviewResult,
      calculateNextReview freshCard 5 0 0 = Except.ok r1 ∧
      calculateNextReview (applyResult freshCard r1) 5 0 0 = Except.ok r2 ∧
      calculateNextReview (applyResult (applyResult freshCard r1) r2) 5 0 0 =
        Except.ok r3 ∧
      r1.interval = 1 ∧ r2.interval = 6 ∧ r3.interval = 15 ∧
      r1.easeFactor = 5/2 ∧ r2.easeFactor = 5/2 ∧ r3.easeFactor = 5/2 ∧
      r1.reviewCount = 1 ∧ r2.reviewCount = 2 ∧ r3.reviewCount = 3 := by
  refine ⟨⟨1, 5/2, 1, 20, 86400000, 0⟩, ⟨6, 5/2, 2, 37, 432000000, 0⟩,
    ⟨15, 5/2, 3, 52, 1209600000, 0⟩, ?_, ?_, ?_, rfl, rfl, rfl, rfl, rfl, rfl,
    rfl, rfl, rfl⟩ <;>
  norm_num [calculateNextReview, calculateNextReviewDate, appliedJitter, jround,
    round2, clampEaseFactor, calculateEaseFactorChange, calculateMasteryIncrement,
    freshCard, initializeCard, testCard, applyResult, dayMs, MIN_EASE_FACTOR,
    MAX_EASE_FACTOR, INITIAL_EASE_FACTOR, MASTERY_INCREMENT]

/-- Modelled from the spec: the mastery-delta formulas of §4.1
("On failure … penalty = −20 × max(0.3, 1 − masteryScore/100)";
"On success … gain = 20 × (quality/5) × (1 − (masteryScore/100) × 0.7)"),
written from the words of the spec for comparison with
`calculateMasteryIncrement`. -/
def masteryDeltaSpec (quality masteryScore : ℚ) : ℚ :=
  if quality < 3 then -20 * max 0.3 (1 - masteryScore / 100)
  else 20 * (quality / 5) * (1 - (masteryScore / 100) * 0.7)

/-- Claim C5: for every valid card and quality in [0,5], the mastery
increment computed by the code equals the spec delta formula, and the returned `masteryScore`
is the input score plus that delta, clamped to [0,100] and rounded to the
nearest integer. -/
theorem mastery_update_formula (card : Card) (quality now rand : ℚ)
    (hq0 : 0 ≤ quality) (hq5 : quality ≤ 5)
    (hm0 : 0 ≤ card.masteryScore) (hm1 : card.masteryScore ≤ 100) :
    calculateMasteryIncrement quality card.masteryScore =
      masteryDeltaSpec quality card.masteryScore ∧
    ∃ res, calculateNextReview card quality now rand = Except.ok res ∧
      res.masteryScore = (jround (min 100 (max 0
        (card.masteryScore + masteryDeltaSpec quality card.masteryScore))) : ℚ) := by
  have heq : calculateMasteryIncrement quality card.masteryScore =
      masteryDeltaSpec quality card.masteryScore := by
    unfold calculateMasteryIncrement masteryDeltaSpec MASTERY_INCREMENT
    split
    · ring
    · ring
  refine ⟨heq, ?_⟩
  rw [calculateNextReview_ok card quality now rand hq0 hq5 hm0 hm1]
  refine ⟨_, rfl, ?_⟩
  dsimp only
  rw [heq]

/-- Concrete instance of C5: the mastery update of a quality-4 review of
`testCard` follows the spec formula. -/
theorem mastery_update_formula_witness :
    calculateMasteryIncrement 4 testCard.masteryScore =
      masteryDeltaSpec 4 testCard.masteryScore ∧
    ∃ res, calculateNextReview testCard 4 0 0 = Except.ok res ∧
      res.masteryScore = (jround (min 100 (max 0
        (testCard.masteryScore + masteryDeltaSpec 4 testCard.masteryScore))) : ℚ) :=
  mastery_update_formula testCard 4 0 0 (by norm_num) (by norm_num)
    (by norm_num [testCard]) (by norm_num [testCard])

/-- Concrete instance of C3: a quality-1 review of `testCard`
(`reviewCount = 3`) resets `reviewCount` to 0 and `interval` to 1. -/
theorem failed_review_resets_witness :
    ∃ res : ReviewResult,
      calculateNextReview testCard 1 0 (1/2) = Except.ok res ∧
      res.reviewCount = 0 ∧ res.interval = 1 :=
  failed_review_resets testCard 1 0 (1/2) (by norm_num [testCard])
    (by norm_num [testCard]) (by norm_num [testCard]) (Or.inr (Or.inl rfl))

/-- Claim C7: `initializeCard` and `resetCardProgress` both set
`interval = 1`, `easeFactor = 2.5`, `reviewCount = 0`, `masteryScore = 0`,
`nextReviewAt = now`, `lastReviewedAt = now`, and `resetCardProgress`
leaves every non-scheduling field of the card unchanged. -/
theorem initialize_and_reset_fields (card : Card) (now : ℚ) :
    (initializeCard card now).interval = 1 ∧
    (initializeCard card now).easeFactor = 5/2 ∧
    (initializeCard card now).reviewCount = 0 ∧
    (initializeCard card now).masteryScore = 0 ∧
    (initializeCard card now).nextReviewAt = now ∧
    (initializeCard card now).lastReviewedAt = now ∧
    (resetCardProgress card now).interval = 1 ∧
    (resetCardProgress card now).easeFactor = 5/2 ∧
    (resetCardProgress card now).reviewCount = 0 ∧
    (resetCardProgress card now).masteryScore = 0 ∧
    (resetCardProgress card now).nextReviewAt = now ∧
    (resetCardProgress card now).lastReviewedAt = now ∧
    (resetCardProgress card now).id = card.id ∧
    (resetCardProgress card now).word = card.word ∧
    (resetCardProgress card now).definition = card.definition ∧
    (resetCardProgress card now).difficulty = card.difficulty ∧
    (resetCardProgress card now).tags = card.tags ∧
    (resetCardProgress card now).examples = card.examples ∧
    (resetCardProgress card now).createdAt = card.createdAt := by
  refine ⟨?_, ?_, ?_, ?_, ?_, ?_, ?_, ?_, ?_, ?_, ?_, ?_, ?_, ?_, ?_, ?_, ?_,
    ?_, ?_⟩ <;>
  norm_num [initializeCard, resetCardProgress, INITIAL_EASE_FACTOR]

/-- Claim C10: the jitter applied to the next review date is always exactly
-1, 0 or +1 whole days, and for every interval in [1,4] days it is 0 for
every value of the random sample in [0,1), so the scheduled date is
exactly `interval` days after `now` and the final clamp to tomorrow does
not move it. -/
theorem jitter_bounded (intervalDays rand : ℚ)
    (hr0 : 0 ≤ rand) (hr1 : rand < 1) :
    (appliedJitter intervalDays rand = -1 ∨ appliedJitter intervalDays rand = 0 ∨
      appliedJitter intervalDays rand = 1) ∧
    (1 ≤ intervalDays → intervalDays ≤ 4 →
      appliedJitter intervalDays rand = 0 ∧
      ∀ now : ℚ, calculateNextReviewDate intervalDays now rand =
        now + intervalDays * dayMs) := by
  constructor
  · simp only [appliedJitter]
    set v := jround (intervalDays * (rand * 0.2 - 0.1)) with hv
    by_cases h : 0 ≤ v
    · rw [if_pos (by exact h), abs_of_nonneg h]
      rcases min_cases v 1 with ⟨h1, h2⟩ | ⟨h1, h2⟩ <;> omega
    · push_neg at h
      rw [if_neg (by omega), abs_of_neg h]
      rcases min_cases (-v) 1 with ⟨h1, h2⟩ | ⟨h1, h2⟩ <;> omega
  · intro hi1 hi4
    have hfloor : jround (intervalDays * (rand * 0.2 - 0.1)) = 0 := by
      unfold jround
      rw [Int.floor_eq_zero_iff, Set.mem_Ico]
      constructor
      · nlinarith
      · nlinarith
    have hz : appliedJitter intervalDays rand = 0 := by
      simp only [appliedJitter, hfloor]
      norm_num
    refine ⟨hz, fun now => ?_⟩
    simp only [calculateNextReviewDate, hz]
    have hday : (0:ℚ) < dayMs := by norm_num [dayMs]
    have hge : now + dayMs ≤ now + intervalDays * dayMs + ((0:ℤ):ℚ) * dayMs := by
      push_cast
      nlinarith
    rw [if_neg (not_lt.2 hge)]
    push_cast
    ring

/-- Concrete instance of C10: with interval 2 and random sample 1/2 the
jitter is 0 and the next review is exactly two days out. -/
theorem jitter_bounded_witness :
    appliedJitter 2 (1/2) = 0 ∧
    calculateNextReviewDate 2 0 (1/2) = 0 + 2 * dayMs := by
  have h := jitter_bounded 2 (1/2) (by norm_num) (by norm_num)
  exact ⟨(h.2 (by norm_num) (by norm_num)).1, (h.2 (by norm_num) (by norm_num)).2 0⟩

/-- Claim C6: `getReviewPriority` equals the spec formula
`(overdueWeight * 2 + masteryWeight * 3) * difficultyWeight * recencyPenalty`
with `overdueWeight = (daysOverdue + 1) ^ 1.5`, and it is strictly
increasing in days overdue: of two cards with the same mastery, difficulty
and review count evaluated at the same `now`, the one overdue by strictly
more days has the strictly higher priority. -/
theorem reviewPriority_strictly_increasing_in_overdue
    (c1 c2 : Card) (now : ℝ)
    (hm : c1.masteryScore = c2.masteryScore)
    (hd : c1.difficulty = c2.difficulty)
    (hr : c1.reviewCount = c2.reviewCount)
    (hov : daysOverdue c2 now < daysOverdue c1 now) :
    getReviewPriority c1 now =
      ((daysOverdue c1 now + 1) ^ (1.5 : ℝ) * 2 +
        (100 - (c1.masteryScore : ℝ)) / 100 * 3) *
        difficultyWeight c1.difficulty *
        (if c1.reviewCount = 0 then 0.5 else 1.0) ∧
    getReviewPriority c2 now < getReviewPriority c1 now := by
  constructor
  · rfl
  · have h0 : (0:ℝ) ≤ daysOverdue c2 now := le_max_left 0 _
    have hpow : (daysOverdue c2 now + 1) ^ (1.5:ℝ) <
        (daysOverdue c1 now + 1) ^ (1.5:ℝ) :=
      Real.rpow_lt_rpow (by linarith) (by linarith) (by norm_num)
    have hdw : (0:ℝ) < difficultyWeight c2.difficulty := by
      cases c2.difficulty <;> norm_num [difficultyWeight]
    have hrp : (0:ℝ) < (if c2.reviewCount = 0 then (0.5:ℝ) else 1.0) := by
      split <;> norm_num
    simp only [getReviewPriority, hm, hd, hr]
    apply mul_lt_mul_of_pos_right _ hrp
    apply mul_lt_mul_of_pos_right _ hdw
    linarith

/-- Concrete instance of C6: at `now = 0`, the card five days overdue
outranks the card one day overdue. -/
theorem reviewPriority_strictly_increasing_in_overdue_witness :
    getReviewPriority (overdueCard (-432000000)) 0 =
      ((daysOverdue (overdueCard (-432000000)) 0 + 1) ^ (1.5 : ℝ) * 2 +
        (100 - ((overdueCard (-432000000)).masteryScore : ℝ)) / 100 * 3) *
        difficultyWeight (overdueCard (-432000000)).difficulty *
        (if (overdueCard (-432000000)).reviewCount = 0 then 0.5 else 1.0) ∧
    getReviewPriority (overdueCard (-86400000)) 0 <
      getReviewPriority (overdueCard (-432000000)) 0 :=
  reviewPriority_strictly_increasing_in_overdue
    (overdueCard (-432000000)) (overdueCard (-86400000)) 0 rfl rfl rfl
    (by
      simp only [daysOverdue, overdueCard, testCard]
      push_cast
      norm_num)

lemma jsDiv_fin {x y : ℚ} (hy : y ≠ 0) : jsDiv (.fin x) (.fin y) = .fin (x / y) := by
  simp [jsDiv, hy]

lemma jsCeil_fin (x : ℚ) : jsCeil (.fin x) = .fin (⌈x⌉ : ℚ) := rfl

/-- Claim C8 (amended): for mastery in [0,100], *strictly positive* accuracy in
(0,100] and `reviewsPerDay ≥ 1`, `estimateTimeToMastery` returns the
finite pair given by the spec formulas, and returns `{0, 0}` when
mastery ≥ 95.  (At accuracy 0 the divisor is zero and the code returns
Infinity for both fields; see the counterexample.) -/
theorem estimateTimeToMastery_formula
    (currentMastery averageAccuracy reviewsPerDay : ℚ)
    (hm0 : 0 ≤ currentMastery) (hm1 : currentMastery ≤ 100)
    (ha0 : 0 < averageAccuracy) (ha1 : averageAccuracy ≤ 100)
    (hr : 1 ≤ reviewsPerDay) :
    (95 ≤ currentMastery →
      estimateTimeToMastery currentMastery averageAccuracy reviewsPerDay =
        { days := .fin 0, reviews := .fin 0 }) ∧
    (currentMastery < 95 →
      (estimateTimeToMastery currentMastery averageAccuracy reviewsPerDay).reviews =
        .fin (⌈(100 - currentMastery) /
          (((averageAccuracy / 100) * 15) * (1 - (currentMastery / 100) * 0.5))⌉ : ℚ) ∧
      (estimateTimeToMastery currentMastery averageAccuracy reviewsPerDay).days =
        .fin (⌈(⌈(100 - currentMastery) /
          (((averageAccuracy / 100) * 15) * (1 - (currentMastery / 100) * 0.5))⌉ : ℚ) /
            reviewsPerDay⌉ : ℚ)) := by
  have hgain : (0:ℚ) < (averageAccuracy / 100) * 15 := by positivity
  have hdim : (0:ℚ) < 1 - (currentMastery / 100) * 0.5 := by nlinarith
  have hdiv : ((averageAccuracy / 100) * 15) * (1 - (currentMastery / 100) * 0.5) ≠ 0 :=
    ne_of_gt (mul_pos hgain hdim)
  have hrne : reviewsPerDay ≠ 0 := by positivity
  constructor
  · intro h
    simp only [estimateTimeToMastery]
    rw [if_pos (by exact h)]
  · intro h
    simp only [estimateTimeToMastery]
    rw [if_neg (by exact not_le.2 (lt_of_lt_of_le h (by norm_num)))]
    constructor
    · dsimp only
      rw [jsDiv_fin hdiv, jsCeil_fin]
    · dsimp only
      rw [jsDiv_fin hdiv, jsCeil_fin, jsDiv_fin hrne, jsCeil_fin]

/-- Concrete instance of C8 (amended): mastery 50, accuracy 60, two
reviews per day gives the finite spec-formula pair. -/
theorem estimateTimeToMastery_formula_witness :
    (estimateTimeToMastery 50 60 2).reviews =
      .fin (⌈((100:ℚ) - 50) / ((((60:ℚ) / 100) * 15) * (1 - ((50:ℚ) / 100) * 0.5))⌉ : ℚ) ∧
    (estimateTimeToMastery 50 60 2).days =
      .fin (⌈(⌈((100:ℚ) - 50) / ((((60:ℚ) / 100) * 15) * (1 - ((50:ℚ) / 100) * 0.5))⌉ : ℚ) /
        2⌉ : ℚ) :=
  (estimateTimeToMastery_formula 50 60 2 (by norm_num) (by norm_num) (by norm_num)
    (by norm_num) (by norm_num)).2 (by norm_num)

/-- Counterexample to C8 as stated: at mastery 50, accuracy 0 (a valid
input per the claim) and one review per day, the divisor
`averageGainPerReview * diminishingFactor` is 0, so the JS division
produces Infinity and the returned pair is not finite. -/
theorem estimateTimeToMastery_infinite_at_zero_accuracy :
    (estimateTimeToMastery 50 0 1).days = JsNum.posInf ∧
    (estimateTimeToMastery 50 0 1).reviews = JsNum.posInf ∧
    ∀ q : ℚ, (estimateTimeToMastery 50 0 1).days ≠ JsNum.fin q := by
  have h : (estimateTimeToMastery 50 0 1) =
      { days := JsNum.posInf, reviews := JsNum.posInf } := by
    simp only [estimateTimeToMastery]
    rw [if_neg (by norm_num)]
    norm_num [jsDiv, jsCeil]
  refine ⟨by rw [h], by rw [h], fun q => by rw [h]; exact fun hq => JsNum.noConfusion hq⟩

/-- Claim C9: for nonnegative inputs with accuracy in [0,100],
`calculateDailyGoal` returns an integer in [10, 100], and returns the
default 20 when `totalWords = 0`. -/
theorem calculateDailyGoal_bounds
    (totalWords dueWords averageStudyTime availableTime averageAccuracy : ℝ)
    (htw : 0 ≤ totalWords) (hdue : 0 ≤ dueWords) (hst : 0 ≤ averageStudyTime)
    (hav : 0 ≤ availableTime) (ha0 : 0 ≤ averageAccuracy) (ha1 : averageAccuracy ≤ 100) :
    (∃ k : ℤ, calculateDailyGoal totalWords dueWords averageStudyTime availableTime
        averageAccuracy = (k : ℝ)) ∧
    10 ≤ calculateDailyGoal totalWords dueWords averageStudyTime availableTime
        averageAccuracy ∧
    calculateDailyGoal totalWords dueWords averageStudyTime availableTime
        averageAccuracy ≤ 100 ∧
    (totalWords = 0 → calculateDailyGoal totalWords dueWords averageStudyTime
        availableTime averageAccuracy = 20) := by
  by_cases h0 : totalWords = 0
  · simp only [calculateDailyGoal, if_pos h0]
    exact ⟨⟨20, by norm_num⟩, by norm_num, by norm_num, fun _ => by norm_num⟩
  · simp only [calculateDailyGoal, if_neg h0]
    refine ⟨⟨min (max 10 (jroundR ((min dueWords 50 * 0.4 +
        ((⌊(availableTime * 60) / (if averageStudyTime = 0 then 30
          else averageStudyTime)⌋ : ℤ) : ℝ) * 0.3 +
        min (Real.logb 10 (totalWords + 1)) 2 * 15) *
        (0.5 + (averageAccuracy / 100) * 0.5)))) 100, ?_⟩, ?_, ?_,
      fun h => absurd h h0⟩
    · push_cast
      rfl
    · exact le_min (le_max_left 10 _) (by norm_num)
    · exact min_le_right _ _

/-- Concrete instance of C9: with no words at all the recommended goal is
the default 20, inside [10, 100]. -/
theorem calculateDailyGoal_bounds_witness :
    10 ≤ calculateDailyGoal 0 0 0 0 50 ∧
    calculateDailyGoal 0 0 0 0 50 ≤ 100 ∧
    calculateDailyGoal 0 0 0 0 50 = 20 := by
  have h := calculateDailyGoal_bounds 0 0 0 0 50 (by norm_num) (by norm_num)
    (by norm_num) (by norm_num) (by norm_num) (by norm_num)
  exact ⟨h.2.1, h.2.2.1, h.2.2.2 rfl⟩
